import Mathlib

/-!
# Verification of the chess-game core against its specification

This file shallowly embeds the core logic of the chess-game repository:

* the fallback move selector (`makeFallbackMove` in the `ChessGame` component),
* the AI raw-text move resolver inside `getAIMove`,
* the LM Studio service layer (`checkLMStudioConnection`, `fetchRawAIMove`),
* the undo/redo history store (the history-sync effect, `undoMove`, `redoMove`),
* the player drop handler (`onDrop`, `isPawnPromotion`, `handlePromotion`).

JavaScript string primitives used by the source (`includes`, `startsWith`,
`split(' ')[0]`, `trim`, `toLowerCase`, `charAt`, negative-index array access,
`slice`) are modelled over `List Char` / `List` so every definition is
executable.  The chess rules oracle (the external `chess.js` library) is out
of the repository's scope; it enters as function parameters or as explicit
concrete move tables for the scenario claims.
-/

/-! ## JavaScript string primitives -/

/-- Model of JavaScript `s.includes(c)` for a single-character needle. -/
def jsIncludes (s : String) (c : Char) : Bool :=
  s.data.contains c

/-- Model of JavaScript `s.startsWith(c)` for a single-character argument. -/
def jsStartsWithChar (s : String) (c : Char) : Bool :=
  s.data.head? == some c

/-- Model of JavaScript `s.toLowerCase()` (the source only feeds it ASCII
chess notation). -/
def jsToLower (s : String) : String :=
  ⟨s.data.map Char.toLower⟩

/-- Whitespace recognised by JavaScript `trim` that can occur in the
source's inputs. -/
def jsIsWhitespace (c : Char) : Bool :=
  c == ' ' || c == '\t' || c == '\n' || c == '\r'

/-- Model of JavaScript `s.trim()`. -/
def jsTrim (s : String) : String :=
  ⟨((s.data.dropWhile jsIsWhitespace).reverse.dropWhile jsIsWhitespace).reverse⟩

/-- Model of JavaScript `s.charAt(i)`: the character at index `i`, if any. -/
def jsCharAt (s : String) (i : Nat) : Option Char :=
  s.data.get? i

/-- Model of JavaScript `s.split(' ')[0]`: the characters before the first
space (the empty string when `s` starts with a space). -/
def jsFirstSpaceToken (s : String) : String :=
  ⟨s.data.takeWhile (fun c => c != ' ')⟩

/-- The character class of the cleaning regex `/["'.:,;\n\r]/g` in
`getAIMove` (the second entry is the apostrophe). -/
def cleanedAwayChars : List Char :=
  ['"', Char.ofNat 39, '.', ':', ',', ';', '\n', '\r']

/-- Model of `rawAiMoveText.replace(/["'.:,;\n\r]/g, '')`. -/
def jsRemoveCleanedChars (s : String) : String :=
  ⟨s.data.filter (fun c => !(cleanedAwayChars.contains c))⟩

/-- The active-color field of a FEN string (its second space-separated
field).  This models the external rules oracle's `turn()` accessor on the
well-formed FEN snapshots the component stores. -/
def fenActiveColor (fen : String) : String :=
  ⟨((fen.data.dropWhile (fun c => c != ' ')).drop 1).takeWhile (fun c => c != ' ')⟩

/-! ## Fallback selector (`makeFallbackMove`) -/

/-- `legalMoves.filter(m => m.includes('x'))` from `makeFallbackMove`. -/
def captureMoves (ms : List String) : List String :=
  ms.filter (fun m => jsIncludes m 'x')

/-- `legalMoves.filter(m => m.includes('+'))` from `makeFallbackMove`. -/
def checkMoves (ms : List String) : List String :=
  ms.filter (fun m => jsIncludes m '+')

/-- `legalMoves.filter(m => m.includes('='))` from `makeFallbackMove`. -/
def promotionMoves (ms : List String) : List String :=
  ms.filter (fun m => jsIncludes m '=')

/-- `legalMoves.filter(m => (m.startsWith('N') || m.startsWith('B')) && !m.includes('x'))`
from `makeFallbackMove`. -/
def developingMoves (ms : List String) : List String :=
  ms.filter (fun m => (jsStartsWithChar m 'N' || jsStartsWithChar m 'B') && !(jsIncludes m 'x'))

/-- The bucket from which `makeFallbackMove` draws the random move: the
`if`/`else if` chain of the source, guarded by `length > 0` tests. -/
def fallbackBucket (ms : List String) : List String :=
  if 0 < (checkMoves ms).length then checkMoves ms
  else if 0 < (captureMoves ms).length then captureMoves ms
  else if 0 < (promotionMoves ms).length then promotionMoves ms
  else if 0 < (developingMoves ms).length then developingMoves ms
  else ms

/-- The move `makeFallbackMove` selects when the random draw
`Math.floor(Math.random() * bucket.length)` produces index `r`. -/
def fallbackSelectedMove (ms : List String) (r : Nat) : Option String :=
  (fallbackBucket ms).get? r

/-- Stated from the specification's words: the highest-priority non-empty
bucket in the fixed order check-giving > capture > promotion > developing >
any. -/
def highestPriorityBucket (ms : List String) : List String :=
  if checkMoves ms ≠ [] then checkMoves ms
  else if captureMoves ms ≠ [] then captureMoves ms
  else if promotionMoves ms ≠ [] then promotionMoves ms
  else if developingMoves ms ≠ [] then developingMoves ms
  else ms

lemma fallbackBucket_eq_highestPriorityBucket (ms : List String) :
    fallbackBucket ms = highestPriorityBucket ms := by
  unfold fallbackBucket highestPriorityBucket
  simp only [List.length_pos]

/-- Claim C1: for every legal-move set, every move the fallback selector can
pick (any index the random draw can produce) belongs to the
highest-priority non-empty bucket in the fixed order check-giving >
capture > promotion > developing > any; in particular, whenever at least
one legal move gives check (carries the `+` suffix the source tests for),
the selected move is a checking move. -/
theorem fallback_selects_highest_priority_bucket
    (ms : List String) (r : Nat) (m : String)
    (h : fallbackSelectedMove ms r = some m) :
    m ∈ highestPriorityBucket ms ∧ (checkMoves ms ≠ [] → m ∈ checkMoves ms) := by
  have hmem : m ∈ fallbackBucket ms := List.get?_mem h
  constructor
  · rwa [fallbackBucket_eq_highestPriorityBucket] at hmem
  · intro hne
    have hbucket : fallbackBucket ms = checkMoves ms := by
      rw [fallbackBucket_eq_highestPriorityBucket]
      unfold highestPriorityBucket
      rw [if_pos hne]
    rwa [hbucket] at hmem

/-- Witness for claim C1 at a concrete legal-move set containing a checking
move, a capture and a quiet move. -/
theorem fallback_selects_highest_priority_bucket_witness :
    "Qh5+" ∈ highestPriorityBucket ["Qh5+", "exd5", "Nf3"] ∧
      (checkMoves ["Qh5+", "exd5", "Nf3"] ≠ [] →
        "Qh5+" ∈ checkMoves ["Qh5+", "exd5", "Nf3"]) :=
  fallback_selects_highest_priority_bucket ["Qh5+", "exd5", "Nf3"] 0 "Qh5+" (by decide)

/-! ## AI move resolver (the validation stages inside `getAIMove`) -/

/-- A verbose legal-move descriptor as consumed by the resolver: the fields
of a `chess.js` verbose move that `getAIMove` reads (`san`, `piece`, `to`). -/
structure VerboseMove where
  san : String
  piece : String
  toSq : String
deriving DecidableEq

/-- The rules-oracle data `getAIMove` consults at one fixed position:
`tempGame.move(text)` (returning the applied move or failing) and
`moves({verbose: true})`. -/
structure ResolverOracle where
  applySan : String → Option VerboseMove
  legalMovesVerbose : List VerboseMove

/-- The cleaning step of `getAIMove`:
`rawAiMoveText.replace(/["'.:,;\n\r]/g, '').split(' ')[0].trim()`. -/
def cleanAIMoveText (raw : String) : String :=
  jsTrim (jsFirstSpaceToken (jsRemoveCleanedChars raw))

/-- The predicate of the `find` in `getAIMove`'s recovery stage:
`m.san === t || m.san.toLowerCase() === t.toLowerCase() ||
(m.piece.toLowerCase() + m.to === t.toLowerCase())`. -/
def variationMatch (t : String) (m : VerboseMove) : Bool :=
  m.san == t || jsToLower m.san == jsToLower t ||
    (jsToLower m.piece ++ m.toSq == jsToLower t)

/-- The staged move resolution of `getAIMove`: clean the raw text, try the
token directly, otherwise search the verbose legal moves with
`variationMatch` and re-apply the found move's canonical SAN.  Returns the
applied move (or `none`, which sends the caller to `makeFallbackMove`)
together with the final `aiMoveText`. -/
def resolveAIMove (o : ResolverOracle) (raw : String) : Option VerboseMove × String :=
  let aiMoveText := cleanAIMoveText raw
  match o.applySan aiMoveText with
  | some mv => (some mv, aiMoveText)
  | none =>
    match o.legalMovesVerbose.find? (variationMatch aiMoveText) with
    | some foundMove =>
      match o.applySan foundMove.san with
      | some mv => (some mv, foundMove.san)
      | none => (none, foundMove.san)
    | none => (none, aiMoveText)

/-- Short constructor for verbose moves. -/
def vm (s p t : String) : VerboseMove := ⟨s, p, t⟩

/-- The twenty legal moves of the initial position, in which `Nf3` is the
only knight-to-f3 legal move. -/
def startPosMoves : List VerboseMove :=
  [vm "a3" "p" "a3", vm "a4" "p" "a4", vm "b3" "p" "b3", vm "b4" "p" "b4",
   vm "c3" "p" "c3", vm "c4" "p" "c4", vm "d3" "p" "d3", vm "d4" "p" "d4",
   vm "e3" "p" "e3", vm "e4" "p" "e4", vm "f3" "p" "f3", vm "f4" "p" "f4",
   vm "g3" "p" "g3", vm "g4" "p" "g4", vm "h3" "p" "h3", vm "h4" "p" "h4",
   vm "Na3" "n" "a3", vm "Nc3" "n" "c3", vm "Nf3" "n" "f3", vm "Nh3" "n" "h3"]

/-- Rules oracle at the initial position: `move(t)` succeeds exactly on the
canonical SAN of a legal move. -/
def startPosOracle : ResolverOracle :=
  { applySan := fun t => startPosMoves.find? (fun m => m.san == t),
    legalMovesVerbose := startPosMoves }

/-- Claim C2 (code bug evidence): cleaning the raw text `"  Nf3.\n"` yields
the empty token, because the source takes `split(' ')[0]` before `trim()`,
so the leading spaces leave an empty first field; resolution against the
initial position (where `Nf3` is the only knight-to-f3 legal move)
therefore returns no move and falls through to the fallback, even though
`Nf3` is legal.  Without the leading whitespace the same raw text resolves
via stage 1 exactly as the claim describes. -/
theorem resolver_leading_whitespace_yields_empty_token :
    cleanAIMoveText "  Nf3.\n" = "" ∧
      (resolveAIMove startPosOracle "  Nf3.\n").1 = none ∧
      cleanAIMoveText "Nf3.\n" = "Nf3" ∧
      (resolveAIMove startPosOracle "Nf3.\n").1 = some (vm "Nf3" "n" "f3") := by
  decide

/-- The legal moves of a position in which the f-pawn has already advanced
to f4, so no pawn move lands on f3 and the knight move `Nf3` is the only
legal move with destination f3. -/
def pawnOnF4Moves : List VerboseMove :=
  [vm "Nf3" "n" "f3", vm "Nh3" "n" "h3", vm "Na3" "n" "a3", vm "Nc3" "n" "c3",
   vm "e3" "p" "e3", vm "g3" "p" "g3", vm "f5" "p" "f5", vm "e4" "p" "e4"]

/-- Rules oracle for the pawn-on-f4 position; `move("f3")` fails because the
pawn move to f3 is not legal there. -/
def pawnOnF4Oracle : ResolverOracle :=
  { applySan := fun t => pawnOnF4Moves.find? (fun m => m.san == t),
    legalMovesVerbose := pawnOnF4Moves }

/-- Claim C3 (code bug evidence): resolving the raw text `"f3"` in a
position whose only legal move landing on f3 is the knight move `Nf3`
yields no move: stage 1 fails (the pawn move is illegal), stage 2 fails
(`"Nf3"` does not equal `"f3"` in any case), and stage 3 compares the
concatenation piece-letter + destination (`"nf3"`) against the token
(`"f3"`), which can never match a bare destination square — contradicting
the source's own inline comment `e.g. Nf3 vs f3`.  The conjuncts also
record that `Nf3` is legal and applies, so the failure is the matcher's. -/
theorem resolver_bare_destination_not_recovered :
    (resolveAIMove pawnOnF4Oracle "f3").1 = none ∧
      (resolveAIMove pawnOnF4Oracle "f3").2 = "f3" ∧
      pawnOnF4Oracle.applySan "Nf3" = some (vm "Nf3" "n" "f3") ∧
      vm "Nf3" "n" "f3" ∈ pawnOnF4Oracle.legalMovesVerbose := by
  decide

/-! ## LM Studio service (`checkLMStudioConnection`, `fetchRawAIMove`)

Each HTTP request is modelled by its outcome: `Except.error e` when the
request raised (network failure, timeout, non-2xx response) and
`Except.ok r` when it resolved with a (truthy) parsed body `r`. -/

/-- One entry of the `choices` array: `text` (completions shape) and the
`message.content` field (chat shape), each possibly absent. -/
structure LMStudioChoice where
  text : Option String := none
  message : Option String := none
deriving DecidableEq

/-- The parsed body of a completion-style response; `model` is the optional
top-level model name. -/
structure LMStudioResponse where
  choices : List LMStudioChoice := []
  model : Option String := none
deriving DecidableEq

/-- One entry of the `/models` listing. -/
structure LMStudioModelInfo where
  id : String
deriving DecidableEq

/-- The parsed body of the `/models` listing. -/
structure LMStudioModelsResponse where
  models : List LMStudioModelInfo
deriving DecidableEq

/-- The `ConnectionStatus` interface of the service. -/
structure ConnectionStatus where
  connected : Bool
  modelId : Option String
  error : Option String := none
deriving DecidableEq

/-- JavaScript `s || d` on strings: the empty string is falsy. -/
def jsOrString (s d : String) : String :=
  if s == "" then d else s

/-- JavaScript `o || d` where `o` is a possibly-absent string field. -/
def jsOrOptString (o : Option String) (d : String) : String :=
  match o with
  | some s => jsOrString s d
  | none => d

/-- Third connection check of `checkLMStudioConnection`: the legacy
`/completions` probe, and the all-failed result. -/
def checkCompletionStep (completionOutcome : Except String LMStudioResponse) :
    ConnectionStatus :=
  match completionOutcome with
  | Except.ok r => { connected := true, modelId := some (jsOrOptString r.model "Unknown model") }
  | Except.error _ =>
    { connected := false, modelId := none,
      error := some "Failed to connect after trying multiple endpoints." }

/-- Second connection check of `checkLMStudioConnection`: the
`/chat/completions` probe. -/
def checkChatStep (chatOutcome completionOutcome : Except String LMStudioResponse) :
    ConnectionStatus :=
  match chatOutcome with
  | Except.ok r => { connected := true, modelId := some (jsOrOptString r.model "Unknown model") }
  | Except.error _ => checkCompletionStep completionOutcome

/-- `checkLMStudioConnection`: try the `/models` listing (success only if it
returns at least one model), then `/chat/completions`, then `/completions`;
the first successful check wins. -/
def checkLMStudioConnection (modelsOutcome : Except String LMStudioModelsResponse)
    (chatOutcome completionOutcome : Except String LMStudioResponse) :
    ConnectionStatus :=
  match modelsOutcome with
  | Except.ok mr =>
    match mr.models.head? with
    | some activeModel =>
      { connected := true, modelId := some (jsOrString activeModel.id "Unknown") }
    | none => checkChatStep chatOutcome completionOutcome
  | Except.error _ => checkChatStep chatOutcome completionOutcome

/-- Claim C9: when the `/models` listing and the chat-style completion both
fail while the legacy `/completions` call returns a body, the probe still
reports `connected: true` (with the model name taken from that body, or
`"Unknown model"`). -/
theorem connection_check_legacy_endpoint_succeeds
    (e1 e2 : String) (r : LMStudioResponse) :
    checkLMStudioConnection (Except.error e1) (Except.error e2) (Except.ok r) =
      { connected := true, modelId := some (jsOrOptString r.model "Unknown model"),
        error := none } :=
  rfl

/-- Usable content of a chat-style response, as read by `fetchRawAIMove`:
`response.data?.choices?.[0]?.message?.content` must be truthy (present and
non-empty); the returned text is trimmed. -/
def extractChatContent (r : LMStudioResponse) : Option String :=
  match r.choices.head? with
  | some ch =>
    match ch.message with
    | some content => if content == "" then none else some (jsTrim content)
    | none => none
  | none => none

/-- Usable text of a completion-style response, as read by `fetchRawAIMove`:
`choices?.[0]?.text` must be truthy; the returned text is trimmed. -/
def extractCompletionText (r : LMStudioResponse) : Option String :=
  match r.choices.head? with
  | some ch =>
    match ch.text with
    | some t => if t == "" then none else some (jsTrim t)
    | none => none
  | none => none

/-- The message of the error `fetchRawAIMove` throws itself when the
`/completions` body holds no usable text. -/
def completionsEmptyError : String :=
  "Received empty or invalid response from /completions endpoint."

/-- The wrapper of the error finally thrown by `fetchRawAIMove`. -/
def wrapFetchError (e : String) : String :=
  "Failed to get AI move from LM Studio after trying both endpoints. Last error: " ++ e

/-- Usable content of the whole chat attempt (a raised request yields
nothing usable, matching the swallowed `catch`). -/
def chatContentOf (c : Except String LMStudioResponse) : Option String :=
  match c with
  | Except.ok r => extractChatContent r
  | Except.error _ => none

/-- Usable text of the whole legacy completion attempt. -/
def completionTextOf (c : Except String LMStudioResponse) : Option String :=
  match c with
  | Except.ok r => extractCompletionText r
  | Except.error _ => none

/-- The last underlying error of the legacy attempt: the request's own
error, or the empty-response error thrown (and immediately re-caught)
inside the second `try` block. -/
def lastUnderlyingError (c : Except String LMStudioResponse) : String :=
  match c with
  | Except.ok _ => completionsEmptyError
  | Except.error e => e

/-- `fetchRawAIMove`: try the chat-style request first; only if it raised or
produced no usable content, try the legacy completion request; raise the
wrapped last error only when both shapes are exhausted. -/
def fetchRawAIMove (chatOutcome completionOutcome : Except String LMStudioResponse) :
    Except String String :=
  match chatContentOf chatOutcome with
  | some t => Except.ok t
  | none =>
    match completionOutcome with
    | Except.ok r =>
      match extractCompletionText r with
      | some t => Except.ok t
      | none => Except.error (wrapFetchError completionsEmptyError)
    | Except.error e => Except.error (wrapFetchError e)

/-- Claim C8: the raw-move fetch raises exactly when both request shapes are
exhausted; chat-usable content is returned as-is (the legacy outcome is
never consulted); legacy-usable text is returned when the chat attempt was
unusable; and when both fail the raised error carries the last underlying
error. -/
lemma fetchRawAIMove_of_chat_content {chat : Except String LMStudioResponse}
    {t : String} (comp : Except String LMStudioResponse)
    (h : chatContentOf chat = some t) :
    fetchRawAIMove chat comp = Except.ok t := by
  unfold fetchRawAIMove
  rw [h]

lemma fetchRawAIMove_of_no_chat_content {chat : Except String LMStudioResponse}
    (comp : Except String LMStudioResponse) (h : chatContentOf chat = none) :
    fetchRawAIMove chat comp =
      match completionTextOf comp with
      | some t => Except.ok t
      | none => Except.error (wrapFetchError (lastUnderlyingError comp)) := by
  unfold fetchRawAIMove
  rw [h]
  cases comp with
  | ok r => rfl
  | error e => rfl

/-- Claim C8: the raw-move fetch raises exactly when both request shapes are
exhausted; chat-usable content is returned as-is (the legacy outcome is
never consulted); legacy-usable text is returned when the chat attempt was
unusable; and when both fail the raised error carries the last underlying
error. -/
theorem fetchRawAIMove_exhausts_both_shapes
    (chatOutcome completionOutcome : Except String LMStudioResponse) :
    ((∃ e, fetchRawAIMove chatOutcome completionOutcome = Except.error e) ↔
        (chatContentOf chatOutcome = none ∧ completionTextOf completionOutcome = none)) ∧
      (∀ t, chatContentOf chatOutcome = some t →
        ∀ other, fetchRawAIMove chatOutcome other = Except.ok t) ∧
      (∀ t, chatContentOf chatOutcome = none → completionTextOf completionOutcome = some t →
        fetchRawAIMove chatOutcome completionOutcome = Except.ok t) ∧
      (chatContentOf chatOutcome = none → completionTextOf completionOutcome = none →
        fetchRawAIMove chatOutcome completionOutcome =
          Except.error (wrapFetchError (lastUnderlyingError completionOutcome))) := by
  refine ⟨?_, fun t ht other => fetchRawAIMove_of_chat_content other ht, ?_, ?_⟩
  · constructor
    · rintro ⟨e, he⟩
      cases hchat : chatContentOf chatOutcome with
      | some t0 =>
        rw [fetchRawAIMove_of_chat_content completionOutcome hchat] at he
        exact absurd he (by simp)
      | none =>
        rw [fetchRawAIMove_of_no_chat_content completionOutcome hchat] at he
        refine ⟨rfl, ?_⟩
        cases hct : completionTextOf completionOutcome with
        | some t0 => rw [hct] at he; exact absurd he (by simp)
        | none => rfl
    · rintro ⟨hchat, hcomp⟩
      rw [fetchRawAIMove_of_no_chat_content completionOutcome hchat, hcomp]
      exact ⟨_, rfl⟩
  · intro t hchat hcomp
    rw [fetchRawAIMove_of_no_chat_content completionOutcome hchat, hcomp]
  · intro hchat hcomp
    rw [fetchRawAIMove_of_no_chat_content completionOutcome hchat, hcomp]

/-- Witness for claim C8: a raised chat request followed by a legacy
response carrying the text `"e5"` yields `"e5"` without error. -/
theorem fetchRawAIMove_exhausts_both_shapes_witness :
    fetchRawAIMove (Except.error "timeout")
        (Except.ok { choices := [{ text := some "e5" }] }) =
      Except.ok "e5" :=
  (fetchRawAIMove_exhausts_both_shapes (Except.error "timeout")
      (Except.ok { choices := [{ text := some "e5" }] })).2.2.1 "e5" rfl rfl

/-! ## History store (the history-sync effect, `undoMove`, `redoMove`)

The component keeps `gameStates : string[]` plus `currentStateIndex`
(initialised to `-1`), so the cursor is modelled by an `Int`. -/

/-- JavaScript array indexing `l[i]` with an integer index: `undefined`
(here `none`) for a negative or out-of-range index. -/
def intGet? (l : List String) (i : Int) : Option String :=
  if i < 0 then none else l.get? i.toNat

/-- JavaScript `l.slice(0, e)` with an integer end index (a negative end
counts from the end of the array). -/
def jsSliceUpTo (l : List String) (e : Int) : List String :=
  if 0 ≤ e then l.take e.toNat else l.take (l.length - (-e).toNat)

/-- The undo/redo store of the component: the `gameStates` list and the
`currentStateIndex` cursor. -/
structure HistoryStore where
  gameStates : List String
  currentStateIndex : Int
deriving DecidableEq

/-- The history-sync effect of the component (run whenever the game object
changes): initialise on first run, otherwise if the current FEN differs
from the entry at the cursor, discard everything after the cursor, append,
and move the cursor to the new last index. -/
def HistoryStore.commit (s : HistoryStore) (fen : String) : HistoryStore :=
  if s.currentStateIndex = -1 then { gameStates := [fen], currentStateIndex := 0 }
  else if intGet? s.gameStates s.currentStateIndex ≠ some fen then
    let newStates := jsSliceUpTo s.gameStates (s.currentStateIndex + 1) ++ [fen]
    { gameStates := newStates, currentStateIndex := (newStates.length : Int) - 1 }
  else s

/-- The store effect of `undoMove`: step the cursor back when
`currentStateIndex > 0`. -/
def HistoryStore.undo (s : HistoryStore) : HistoryStore :=
  if 0 < s.currentStateIndex then
    { s with currentStateIndex := s.currentStateIndex - 1 }
  else s

/-- The position `redoMove` restores, when
`currentStateIndex < gameStates.length - 1`; otherwise `redoMove` is a
no-op, modelled as `none`. -/
def HistoryStore.redoNext (s : HistoryStore) : Option String :=
  if s.currentStateIndex < (s.gameStates.length : Int) - 1 then
    intGet? s.gameStates (s.currentStateIndex + 1)
  else none

/-- The store effect of `redoMove`. -/
def HistoryStore.redoStep (s : HistoryStore) : HistoryStore :=
  if s.currentStateIndex < (s.gameStates.length : Int) - 1 then
    { s with currentStateIndex := s.currentStateIndex + 1 }
  else s

/-- The entry at the cursor. -/
def HistoryStore.entry (s : HistoryStore) : Option String :=
  intGet? s.gameStates s.currentStateIndex

/-- The component's initial store: empty list, cursor `-1`. -/
def initialHistoryStore : HistoryStore :=
  { gameStates := [], currentStateIndex := -1 }

/-- A store obtained from the initial store by a sequence of commits. -/
def commitAll (ps : List String) : HistoryStore :=
  ps.foldl HistoryStore.commit initialHistoryStore

/-- After any commit the cursor entry is the committed position. -/
lemma HistoryStore.commit_entry (s : HistoryStore) (p : String) :
    (s.commit p).entry = some p := by
  unfold HistoryStore.commit
  split
  · simp [entry, intGet?]
  · split
    · next hmem =>
      simp only [entry, intGet?]
      have hpos : 1 ≤ (jsSliceUpTo s.gameStates (s.currentStateIndex + 1) ++ [p]).length := by
        simp
      rw [if_neg (by omega)]
      have hidx : (((jsSliceUpTo s.gameStates (s.currentStateIndex + 1) ++ [p]).length : Int)
            - 1).toNat = (jsSliceUpTo s.gameStates (s.currentStateIndex + 1)).length := by
        simp only [List.length_append, List.length_singleton]
        omega
      rw [hidx]
      exact List.get?_concat_length _ _
    · next hmem =>
      simp only [entry]
      exact not_not.mp hmem

/-- The cursor of a committed store is never negative. -/
lemma HistoryStore.commit_nonneg (s : HistoryStore) (p : String) :
    0 ≤ (s.commit p).currentStateIndex := by
  unfold HistoryStore.commit
  split
  · simp
  · split
    · have hpos : 1 ≤ (jsSliceUpTo s.gameStates (s.currentStateIndex + 1) ++ [p]).length := by
        simp
      simp only
      omega
    · next h2 =>
      push_neg at h2
      by_contra hneg
      push_neg at hneg
      have h0 : intGet? s.gameStates s.currentStateIndex = none := by
        unfold intGet?
        rw [if_pos hneg]
      rw [h0] at h2
      exact Option.noConfusion h2

/-- Cursor-at-last-index invariant maintained by forward commits. -/
def HistoryStore.AtLast (s : HistoryStore) : Prop :=
  s.currentStateIndex = (s.gameStates.length : Int) - 1

lemma HistoryStore.commit_atLast (s : HistoryStore) (p : String) (h : s.AtLast) :
    (s.commit p).AtLast := by
  unfold HistoryStore.commit
  split
  · simp [AtLast]
  · split
    · simp [AtLast]
    · exact h

lemma foldl_commit_atLast (ps : List String) (s : HistoryStore) (h : s.AtLast) :
    (ps.foldl HistoryStore.commit s).AtLast := by
  induction ps generalizing s with
  | nil => exact h
  | cons q qs ih => exact ih _ (HistoryStore.commit_atLast s q h)

lemma commitAll_atLast (ps : List String) : (commitAll ps).AtLast :=
  foldl_commit_atLast ps initialHistoryStore
    (by simp [HistoryStore.AtLast, initialHistoryStore])

lemma HistoryStore.entry_some_elim (s : HistoryStore) (p : String)
    (h : s.entry = some p) :
    0 ≤ s.currentStateIndex ∧ s.currentStateIndex.toNat < s.gameStates.length ∧
      s.gameStates.get? s.currentStateIndex.toNat = some p := by
  unfold entry intGet? at h
  by_cases hneg : s.currentStateIndex < 0
  · rw [if_pos hneg] at h
    exact absurd h (by simp)
  · rw [if_neg hneg] at h
    obtain ⟨hlt, -⟩ := List.get?_eq_some.mp h
    exact ⟨by omega, hlt, h⟩

lemma HistoryStore.entry_undo_redo (L : List String) (c : Int) (p : String)
    (hE : intGet? L c = some p) (hL : c = (L.length : Int) - 1) :
    ((HistoryStore.undo ⟨L, c⟩).redoStep).entry = some p := by
  have hc0 : 0 ≤ c := by
    by_contra hneg
    push_neg at hneg
    unfold intGet? at hE
    rw [if_pos hneg] at hE
    exact Option.noConfusion hE
  by_cases hc : 0 < c
  · have hundo : HistoryStore.undo ⟨L, c⟩ = ⟨L, c - 1⟩ := by
      simp [HistoryStore.undo, hc]
    have hcond : c - 1 < (L.length : Int) - 1 := by omega
    have hredo : HistoryStore.redoStep ⟨L, c - 1⟩ = ⟨L, c⟩ := by
      simp only [HistoryStore.redoStep]
      rw [if_pos hcond]
      simp only [HistoryStore.mk.injEq, true_and]
      omega
    rw [hundo, hredo]
    exact hE
  · have hlen : (L.length : Int) = c + 1 := by omega
    have hundo : HistoryStore.undo ⟨L, c⟩ = ⟨L, c⟩ := by
      simp [HistoryStore.undo, hc]
    have hcond : ¬ (c < (L.length : Int) - 1) := by omega
    have hredo : HistoryStore.redoStep ⟨L, c⟩ = ⟨L, c⟩ := by
      simp only [HistoryStore.redoStep]
      rw [if_neg hcond]
    rw [hundo, hredo]
    exact hE

/-- Claim C5: committing a position `p` after any prior sequence of commits,
then undoing and redoing, leaves the store's cursor on an entry equal to
`p`. -/
theorem commit_undo_redo_roundtrip (ps : List String) (p : String) :
    ((((commitAll ps).commit p).undo).redoStep).entry = some p := by
  have hE := HistoryStore.commit_entry (commitAll ps) p
  have hL := HistoryStore.commit_atLast (commitAll ps) p (commitAll_atLast ps)
  cases hS : (commitAll ps).commit p with
  | mk L c =>
    rw [hS] at hE hL
    exact HistoryStore.entry_undo_redo L c p hE hL

/-- Claim C4 counterexample: with only `d ≠ a` assumed, the branch-discard
property fails.  Concretely, start from the store `["p","q","r"]` with the
cursor on `"r"`: committing `a = b = c = "r"` is three no-ops, the two
undos walk the cursor back to `"p"`, and committing `d = "p"` (distinct
from `a = "r"`) is again a no-op that leaves the cursor at index 0, so
`redo()` returns the entry `"q"`, not `None`. -/
theorem branch_discard_needs_distinct_commits_cex :
    ¬ (∀ (s : HistoryStore) (a b c d : String), d ≠ a →
        (((((s.commit a).commit b).commit c).undo.undo).commit d).redoNext = none) := by
  intro h
  have h2 := h { gameStates := ["p", "q", "r"], currentStateIndex := 2 } "r" "r" "r" "p"
    (by decide)
  exact absurd h2 (by decide)

lemma jsSliceUpTo_nonneg (l : List String) (c : Int) (h : 0 ≤ c) :
    jsSliceUpTo l (c + 1) = l.take (c.toNat + 1) := by
  unfold jsSliceUpTo
  rw [if_pos (by omega)]
  congr 1
  omega

/-- Committing a position different from the cursor entry (with a
non-negative cursor) truncates after the cursor, appends, and moves the
cursor to the new last index. -/
lemma HistoryStore.commit_append (s : HistoryStore) (p : String)
    (h0 : 0 ≤ s.currentStateIndex) (hne : s.entry ≠ some p) :
    (s.commit p).gameStates =
        s.gameStates.take (s.currentStateIndex.toNat + 1) ++ [p] ∧
      (s.commit p).currentStateIndex =
        ((s.gameStates.take (s.currentStateIndex.toNat + 1)).length : Int) := by
  have hne2 : intGet? s.gameStates s.currentStateIndex ≠ some p := hne
  unfold commit
  rw [if_neg (by omega), if_pos hne2]
  refine ⟨?_, ?_⟩
  · simp only
    rw [jsSliceUpTo_nonneg _ _ h0]
  · simp only
    rw [jsSliceUpTo_nonneg _ _ h0]
    simp only [List.length_append, List.length_singleton]
    omega

lemma HistoryStore.undo_gameStates (s : HistoryStore) :
    s.undo.gameStates = s.gameStates := by
  unfold undo
  split <;> rfl

lemma HistoryStore.undo_currentStateIndex_of_pos (s : HistoryStore)
    (h : 0 < s.currentStateIndex) :
    s.undo.currentStateIndex = s.currentStateIndex - 1 := by
  unfold undo
  rw [if_pos h]

lemma intGet?_natCast (l : List String) (n : Nat) : intGet? l (n : Int) = l.get? n := by
  unfold intGet?
  rw [if_neg (by omega)]
  simp

/-- Claim C4 (amended): the branch-discard property holds for every history
store once all three commits are of genuinely new positions (`b ≠ a`,
`c ≠ b` — as is always the case for successive chess positions — in
addition to the claim's `d ≠ a`): after
`commit a; commit b; commit c; undo; undo; commit d`, `redo()` returns
`None`. -/
theorem branch_discard_after_distinct_commits
    (s : HistoryStore) (a b c d : String)
    (hba : b ≠ a) (hcb : c ≠ b) (hda : d ≠ a) :
    (((((s.commit a).commit b).commit c).undo.undo).commit d).redoNext = none := by
  set s1 := s.commit a with hs1
  have e1 : s1.entry = some a := HistoryStore.commit_entry s a
  obtain ⟨h1nn, h1lt, h1get⟩ := HistoryStore.entry_some_elim s1 a e1
  set k := s1.currentStateIndex.toNat with hk
  have hc1 : s1.currentStateIndex = (k : Int) := by omega
  -- commit b truncates after `a` and appends
  have hne2 : s1.entry ≠ some b := by
    rw [e1]
    intro hh
    exact hba (Option.some.inj hh).symm
  obtain ⟨hstates2, hcur2⟩ := HistoryStore.commit_append s1 b h1nn hne2
  set T := s1.gameStates.take (k + 1) with hT
  have hTlen : T.length = k + 1 := by
    rw [hT, List.length_take]
    omega
  have hTget : T.get? k = some a := by
    rw [hT, List.get?_take (by omega)]
    exact h1get
  set s2 := s1.commit b with hs2
  have hcur2' : s2.currentStateIndex = ((k + 1 : Nat) : Int) := by
    rw [hcur2, hTlen]
  -- commit c appends again
  have e2 : s2.entry = some b := HistoryStore.commit_entry s1 b
  have hne3 : s2.entry ≠ some c := by
    rw [e2]
    intro hh
    exact hcb (Option.some.inj hh).symm
  have h2nn : 0 ≤ s2.currentStateIndex := by
    rw [hcur2']
    omega
  obtain ⟨hstates3, hcur3⟩ := HistoryStore.commit_append s2 c h2nn hne3
  have h2toNat : s2.currentStateIndex.toNat = k + 1 := by
    rw [hcur2']
    omega
  have htake3 : s2.gameStates.take (s2.currentStateIndex.toNat + 1) = T ++ [b] := by
    rw [h2toNat, hstates2]
    exact List.take_of_length_le (by simp [hTlen])
  set s3 := s2.commit c with hs3
  have hstates3' : s3.gameStates = (T ++ [b]) ++ [c] := by
    rw [hstates3, htake3]
  have hcur3' : s3.currentStateIndex = ((k + 2 : Nat) : Int) := by
    rw [hcur3, htake3]
    push_cast [List.length_append, List.length_singleton, hTlen]
    omega
  -- two undos walk the cursor back onto `a`
  set s5 := s3.undo.undo with hs5
  have hs5states : s5.gameStates = (T ++ [b]) ++ [c] := by
    rw [hs5, HistoryStore.undo_gameStates, HistoryStore.undo_gameStates, hstates3']
  have hu1cur : s3.undo.currentStateIndex = ((k + 1 : Nat) : Int) := by
    rw [HistoryStore.undo_currentStateIndex_of_pos _ (by rw [hcur3']; omega), hcur3']
    push_cast
    omega
  have hs5cur : s5.currentStateIndex = (k : Nat) := by
    rw [hs5, HistoryStore.undo_currentStateIndex_of_pos _ (by rw [hu1cur]; omega), hu1cur]
    push_cast
    omega
  have he5 : s5.entry = some a := by
    unfold HistoryStore.entry
    rw [hs5states, hs5cur, intGet?_natCast]
    rw [List.get?_append (by simp [hTlen]; omega)]
    rw [List.get?_append (by omega)]
    exact hTget
  -- commit d truncates b and c away
  have hne6 : s5.entry ≠ some d := by
    rw [he5]
    intro hh
    exact hda (Option.some.inj hh).symm
  have h5nn : 0 ≤ s5.currentStateIndex := by
    rw [hs5cur]
    omega
  obtain ⟨hstates6, hcur6⟩ := HistoryStore.commit_append s5 d h5nn hne6
  have h5toNat : s5.currentStateIndex.toNat = k := by
    rw [hs5cur]
    omega
  have htake6 : s5.gameStates.take (s5.currentStateIndex.toNat + 1) = T := by
    rw [h5toNat, hs5states, List.append_assoc]
    rw [show k + 1 = T.length by omega]
    exact List.take_left T ([b] ++ [c])
  set s6 := s5.commit d with hs6
  have hstates6' : s6.gameStates = T ++ [d] := by
    rw [hstates6, htake6]
  have hcur6' : s6.currentStateIndex = ((k + 1 : Nat) : Int) := by
    rw [hcur6, htake6, hTlen]
  -- the cursor is on the last index, so redo is a no-op
  unfold HistoryStore.redoNext
  rw [if_neg ?hcond]
  case hcond =>
    rw [hcur6', hstates6']
    push_cast [List.length_append, List.length_singleton, hTlen]
    omega

/-- Witness for the amended claim C4 at four distinct concrete positions
committed onto the initial store. -/
theorem branch_discard_after_distinct_commits_witness :
    (("b" : String) ≠ "a" ∧ ("c" : String) ≠ "b" ∧ ("d" : String) ≠ "a") ∧
      (((((initialHistoryStore.commit "a").commit "b").commit "c").undo.undo).commit
            "d").redoNext = none :=
  ⟨⟨by decide, by decide, by decide⟩,
    branch_discard_after_distinct_commits initialHistoryStore "a" "b" "c" "d"
      (by decide) (by decide) (by decide)⟩

/-! ## Orchestrator component state (`ChessGame`)

The React state the claims touch, plus the effects that run after each
`setGame`: the history-sync effect (modelled by `HistoryStore.commit`) and
the status/history effect, which recomputes `moveHistory` from the live
game object's own move history.  Every `setGame` in the source constructs
`new Chess(fen)`, whose internal history is empty, so the live game is
modelled as its FEN plus that (always empty) history list.  The external
rules oracle enters as explicit function parameters (`turnOf` for
`game.turn()`, `isOver` for `game.isGameOver()`) and as the pre-computed
outcome of a trial move. -/

/-- A piece as returned by `game.get(square)`: type and color letters. -/
structure Piece where
  type : Char
  color : Char
deriving DecidableEq

/-- The fields of an applied move that the drop handler reads. -/
structure AppliedMove where
  color : Char
  captured : Option Char
  resultFen : String
deriving DecidableEq

/-- One entry of the captured-pieces tally. -/
structure CapturedEntry where
  type : Char
  count : Nat
deriving DecidableEq

/-- The `capturedPieces` state: one tally per side. -/
structure CapturedPieces where
  w : List CapturedEntry
  b : List CapturedEntry
deriving DecidableEq

/-- The `pieceOrder` record used for sorting the tally. -/
def pieceOrderVal (c : Char) : Option Nat :=
  if c == 'q' then some 1
  else if c == 'r' then some 2
  else if c == 'b' then some 3
  else if c == 'n' then some 4
  else if c == 'p' then some 5
  else if c == 'k' then some 6
  else none

/-- Increment the count of an existing entry or push a new one
(`findIndex` / `push` in `addCapturedPiece`). -/
def bumpCaptured (l : List CapturedEntry) (t : Char) : List CapturedEntry :=
  if l.any (fun e => e.type == t) then
    l.map (fun e => if e.type == t then { e with count := e.count + 1 } else e)
  else l ++ [{ type := t, count := 1 }]

/-- Insert an entry into a list sorted by `pieceOrder` (the comparator
`(a, b) => pieceOrder[a.type] - pieceOrder[b.type]`). -/
def insertByOrder (e : CapturedEntry) : List CapturedEntry → List CapturedEntry
  | [] => [e]
  | x :: xs =>
    if ((pieceOrderVal e.type).getD 99) < ((pieceOrderVal x.type).getD 99) then e :: x :: xs
    else x :: insertByOrder e xs

/-- The tally sort of `addCapturedPiece`. -/
def sortCaptured (l : List CapturedEntry) : List CapturedEntry :=
  l.foldr insertByOrder []

/-- `addCapturedPiece`: ignore unknown piece letters, bump or push the entry
on the capturing side's tally, and keep the tally sorted. -/
def addCapturedPiece (cp : CapturedPieces) (ptype pcolor : Char) : CapturedPieces :=
  match pieceOrderVal ptype with
  | none => cp
  | some _ =>
    if pcolor == 'w' then { cp with w := sortCaptured (bumpCaptured cp.w ptype) }
    else { cp with b := sortCaptured (bumpCaptured cp.b ptype) }

/-- The component state touched by the history/undo/redo/promotion claims. -/
structure GameState where
  gameFen : String
  gameHist : List (String × Char)
  isPlayerTurn : Bool
  gameStates : List String
  currentStateIndex : Int
  capturedPieces : CapturedPieces
  moveHistory : List (String × String)
  promotionMove : Option (String × String)
  showPromotionModal : Bool
deriving DecidableEq

/-- The status/history effect's formatting of `game.history({verbose:true})`. -/
def formatHistory (h : List (String × Char)) : List (String × String) :=
  h.map (fun m => (m.1, if m.2 == 'w' then "white" else "black"))

/-- The effects that run after the component's state updates settle: the
history-sync effect and the move-history recomputation. -/
def runEffects (st : GameState) : GameState :=
  let synced := HistoryStore.commit
    { gameStates := st.gameStates, currentStateIndex := st.currentStateIndex } st.gameFen
  { st with
    gameStates := synced.gameStates,
    currentStateIndex := synced.currentStateIndex,
    moveHistory := formatHistory st.gameHist }

/-- `undoMove`: when the cursor is positive, restore the previous snapshot
(`new Chess(previousState)`, whose history is empty), step the cursor back,
recompute the turn flag from the restored snapshot, then let the effects
run. -/
def undoStep (turnOf : String → String) (st : GameState) : GameState :=
  if 0 < st.currentStateIndex then
    let previousState := (intGet? st.gameStates (st.currentStateIndex - 1)).getD ""
    runEffects { st with
      gameFen := previousState,
      gameHist := [],
      currentStateIndex := st.currentStateIndex - 1,
      isPlayerTurn := turnOf previousState == "w" }
  else st

/-- `redoMove`: symmetric to `undoMove` for a cursor before the last
index. -/
def redoStep (turnOf : String → String) (st : GameState) : GameState :=
  if st.currentStateIndex < (st.gameStates.length : Int) - 1 then
    let nextState := (intGet? st.gameStates (st.currentStateIndex + 1)).getD ""
    runEffects { st with
      gameFen := nextState,
      gameHist := [],
      currentStateIndex := st.currentStateIndex + 1,
      isPlayerTurn := turnOf nextState == "w" }
  else st

/-- The AI-trigger effect's firing condition:
`!isPlayerTurn && !game.isGameOver()`. -/
def aiMoveTrigger (isOver : String → Bool) (st : GameState) : Bool :=
  !st.isPlayerTurn && !(isOver st.gameFen)

/-- `isPawnPromotion`: the dragged piece is a pawn and the target square's
rank character is the back rank for its color. -/
def isPawnPromotionCheck (pieceAtSource : Option Piece) (target : String) : Bool :=
  match pieceAtSource with
  | none => false
  | some pc =>
    if pc.type != 'p' then false
    else (pc.color == 'w' && jsCharAt target 1 == some '8') ||
      (pc.color == 'b' && jsCharAt target 1 == some '1')

/-- `onDrop`: reject drops out of turn or after game over; divert
promotion-eligible pawn drops to the modal without touching the game;
otherwise apply the trial move (whose outcome `tryMove` the rules oracle
supplies), record a capture, hand the turn to the AI and let the effects
run. -/
def onDrop (pieceAtSource : Option Piece) (gameOver : Bool)
    (tryMove : Option AppliedMove) (st : GameState) (source target : String) :
    Bool × GameState :=
  if !st.isPlayerTurn || gameOver then (false, st)
  else if isPawnPromotionCheck pieceAtSource target then
    (true, { st with promotionMove := some (source, target), showPromotionModal := true })
  else
    match tryMove with
    | none => (false, st)
    | some mv =>
      let st1 := match mv.captured with
        | some cap =>
          { st with capturedPieces :=
              addCapturedPiece st.capturedPieces cap (if mv.color == 'w' then 'b' else 'w') }
        | none => st
      (true, runEffects { st1 with gameFen := mv.resultFen, gameHist := [], isPlayerTurn := false })

/-- `handlePromotion`: once a piece kind is chosen, apply the stored pending
move with that promotion (outcome supplied by the rules oracle), clear the
modal, and hand the turn to the AI. -/
def handlePromotion (tryPromotionApply : Option AppliedMove) (st : GameState) : GameState :=
  match st.promotionMove with
  | none => st
  | some _ =>
    match tryPromotionApply with
    | some mv =>
      runEffects { st with
        gameFen := mv.resultFen,
        gameHist := [],
        isPlayerTurn := false,
        showPromotionModal := false,
        promotionMove := none }
    | none => st

/-- The snapshot `undoMove` restores (`gameStates[currentStateIndex - 1]`). -/
def prevFen (st : GameState) : String :=
  (intGet? st.gameStates (st.currentStateIndex - 1)).getD ""

/-- The snapshot `redoMove` restores (`gameStates[currentStateIndex + 1]`). -/
def nextFen (st : GameState) : String :=
  (intGet? st.gameStates (st.currentStateIndex + 1)).getD ""

/-- Committing the very entry the cursor sits on is a no-op. -/
lemma HistoryStore.commit_noop (L : List String) (i : Int) (f : String)
    (h0 : 0 ≤ i) (h : intGet? L i = some f) :
    HistoryStore.commit ⟨L, i⟩ f = ⟨L, i⟩ := by
  unfold HistoryStore.commit
  rw [if_neg (show ¬ (HistoryStore.currentStateIndex ⟨L, i⟩ = -1) by simp only; omega)]
  rw [if_neg (by simp only [h]; exact not_not.mpr rfl)]

lemma undoStep_eq (turnOf : String → String) (st : GameState)
    (hpos : 0 < st.currentStateIndex)
    (hlt : st.currentStateIndex < (st.gameStates.length : Int)) :
    undoStep turnOf st = { st with
      gameFen := prevFen st,
      gameHist := [],
      currentStateIndex := st.currentStateIndex - 1,
      isPlayerTurn := turnOf (prevFen st) == "w",
      moveHistory := [] } := by
  have hlt2 : (st.currentStateIndex - 1).toNat < st.gameStates.length := by omega
  obtain ⟨x, hx⟩ : ∃ x, st.gameStates.get? (st.currentStateIndex - 1).toNat = some x :=
    ⟨_, List.get?_eq_get hlt2⟩
  have hi : intGet? st.gameStates (st.currentStateIndex - 1) = some x := by
    unfold intGet?
    rw [if_neg (by omega)]
    exact hx
  have hprev : prevFen st = x := by
    unfold prevFen
    rw [hi]
    rfl
  unfold undoStep
  rw [if_pos hpos]
  unfold runEffects
  simp only [hi, Option.getD_some, hprev]
  rw [HistoryStore.commit_noop st.gameStates (st.currentStateIndex - 1) x (by omega) hi]
  rfl

lemma redoStep_eq (turnOf : String → String) (st : GameState)
    (hge : -1 ≤ st.currentStateIndex)
    (hlt : st.currentStateIndex < (st.gameStates.length : Int) - 1) :
    redoStep turnOf st = { st with
      gameFen := nextFen st,
      gameHist := [],
      currentStateIndex := st.currentStateIndex + 1,
      isPlayerTurn := turnOf (nextFen st) == "w",
      moveHistory := [] } := by
  have hlt2 : (st.currentStateIndex + 1).toNat < st.gameStates.length := by omega
  obtain ⟨x, hx⟩ : ∃ x, st.gameStates.get? (st.currentStateIndex + 1).toNat = some x :=
    ⟨_, List.get?_eq_get hlt2⟩
  have hi : intGet? st.gameStates (st.currentStateIndex + 1) = some x := by
    unfold intGet?
    rw [if_neg (by omega)]
    exact hx
  have hnext : nextFen st = x := by
    unfold nextFen
    rw [hi]
    rfl
  unfold redoStep
  rw [if_pos hlt]
  unfold runEffects
  simp only [hi, Option.getD_some, hnext]
  rw [HistoryStore.commit_noop st.gameStates (st.currentStateIndex + 1) x (by omega) hi]
  rfl

/-- FEN of the initial position. -/
def fenStart : String := "rnbqkbnr/pppppppp/8/8/8/8/PPPPPPPP/RNBQKBNR w KQkq - 0 1"

/-- FEN after 1. e4 (black to move). -/
def fenAfterE4 : String := "rnbqkbnr/pppppppp/8/8/4P3/8/PPPPPPPP/RNBQKBNR b KQkq e4 0 1"

/-- FEN after 1. e4 e5 (white to move). -/
def fenAfterE4E5 : String :=
  "rnbqkbnr/pppp1ppp/8/4p3/4P3/8/PPPPPPPP/RNBQKBNR w KQkq e5 0 2"

/-- A reachable component state right after the human played 1. e4: two
snapshots, cursor on the second, AI (black) to move, derived logs empty. -/
def undoTestState : GameState :=
  { gameFen := fenAfterE4,
    gameHist := [],
    isPlayerTurn := false,
    gameStates := [fenStart, fenAfterE4],
    currentStateIndex := 1,
    capturedPieces := { w := [], b := [] },
    moveHistory := [],
    promotionMove := none,
    showPromotionModal := false }

/-- Claim C6 counterexample: undo does not change only the position
snapshot and the cursor — it also recomputes the human-to-move flag from
the restored snapshot.  In the concrete state reached after the human's
1. e4 (AI to move, flag `false`), undoing restores the initial snapshot
and flips the flag to `true`, while the captured-piece tally and the move
list are indeed left untouched. -/
theorem undo_changes_turn_flag_cex :
    (undoStep fenActiveColor undoTestState).isPlayerTurn = true ∧
      undoTestState.isPlayerTurn = false ∧
      (undoStep fenActiveColor undoTestState).capturedPieces =
        undoTestState.capturedPieces ∧
      (undoStep fenActiveColor undoTestState).moveHistory =
        undoTestState.moveHistory := by
  decide

/-- Claim C6 (amended): from any well-formed component state (cursor within
the snapshot list, move list empty — as it is throughout this component,
since every position update rebuilds the game object from a bare FEN whose
history is empty), undo leaves the captured-piece tally, the move list and
the snapshot sequence untouched; besides the position snapshot and the
cursor, only the human-to-move flag (recomputed from the restored
snapshot) changes. -/
theorem undo_preserves_derived_logs (turnOf : String → String) (st : GameState)
    (hmh : st.moveHistory = [])
    (hwf : st.currentStateIndex < (st.gameStates.length : Int)) :
    (undoStep turnOf st).capturedPieces = st.capturedPieces ∧
      (undoStep turnOf st).moveHistory = st.moveHistory ∧
      (undoStep turnOf st).gameStates = st.gameStates ∧
      (undoStep turnOf st).promotionMove = st.promotionMove := by
  by_cases hpos : 0 < st.currentStateIndex
  · rw [undoStep_eq turnOf st hpos hwf]
    exact ⟨rfl, hmh.symm, rfl, rfl⟩
  · unfold undoStep
    rw [if_neg hpos]
    exact ⟨rfl, rfl, rfl, rfl⟩

/-- Witness for the amended claim C6 at the concrete post-1.e4 state. -/
theorem undo_preserves_derived_logs_witness :
    (undoStep fenActiveColor undoTestState).capturedPieces =
        undoTestState.capturedPieces ∧
      (undoStep fenActiveColor undoTestState).moveHistory =
        undoTestState.moveHistory ∧
      (undoStep fenActiveColor undoTestState).gameStates =
        undoTestState.gameStates ∧
      (undoStep fenActiveColor undoTestState).promotionMove =
        undoTestState.promotionMove :=
  undo_preserves_derived_logs fenActiveColor undoTestState rfl (by decide)

/-- Claim C7: a human drop of a white pawn from rank 7 to rank 8 (during
the human's turn, game not over) is diverted to the promotion modal: the
handler accepts the drop but the live position, the snapshot sequence, the
cursor and the tally are all left untouched, and only the pending
promotion is recorded — so as long as no piece kind is supplied, nothing
is committed. -/
theorem onDrop_promotion_defers_commit
    (tryMove : Option AppliedMove) (st : GameState) (source target : String)
    (hpt : st.isPlayerTurn = true)
    (hs : jsCharAt source 1 = some '7')
    (ht : jsCharAt target 1 = some '8') :
    (onDrop (some ⟨'p', 'w'⟩) false tryMove st source target).1 = true ∧
      (onDrop (some ⟨'p', 'w'⟩) false tryMove st source target).2.gameFen = st.gameFen ∧
      (onDrop (some ⟨'p', 'w'⟩) false tryMove st source target).2.gameStates =
        st.gameStates ∧
      (onDrop (some ⟨'p', 'w'⟩) false tryMove st source target).2.currentStateIndex =
        st.currentStateIndex ∧
      (onDrop (some ⟨'p', 'w'⟩) false tryMove st source target).2.capturedPieces =
        st.capturedPieces ∧
      (onDrop (some ⟨'p', 'w'⟩) false tryMove st source target).2.promotionMove =
        some (source, target) := by
  have hpromo : isPawnPromotionCheck (some ⟨'p', 'w'⟩) target = true := by
    unfold isPawnPromotionCheck
    rw [ht]
    rfl
  unfold onDrop
  rw [hpt, hpromo]
  simp only [Bool.not_true, Bool.or_false, Bool.false_eq_true, if_false, if_true]
  exact ⟨trivial, trivial, trivial, trivial, trivial, trivial⟩

/-- A component state in the middle of a game, used to witness the
promotion-drop claim. -/
def promoTestState : GameState :=
  { gameFen := fenAfterE4E5,
    gameHist := [],
    isPlayerTurn := true,
    gameStates := [fenStart, fenAfterE4, fenAfterE4E5],
    currentStateIndex := 2,
    capturedPieces := { w := [], b := [] },
    moveHistory := [],
    promotionMove := none,
    showPromotionModal := false }

/-- Witness for claim C7 at a concrete drop `e7 → e8`. -/
theorem onDrop_promotion_defers_commit_witness :
    (onDrop (some ⟨'p', 'w'⟩) false none promoTestState "e7" "e8").1 = true ∧
      (onDrop (some ⟨'p', 'w'⟩) false none promoTestState "e7" "e8").2.gameFen =
        promoTestState.gameFen ∧
      (onDrop (some ⟨'p', 'w'⟩) false none promoTestState "e7" "e8").2.gameStates =
        promoTestState.gameStates ∧
      (onDrop (some ⟨'p', 'w'⟩) false none promoTestState "e7" "e8").2.currentStateIndex =
        promoTestState.currentStateIndex ∧
      (onDrop (some ⟨'p', 'w'⟩) false none promoTestState "e7" "e8").2.capturedPieces =
        promoTestState.capturedPieces ∧
      (onDrop (some ⟨'p', 'w'⟩) false none promoTestState "e7" "e8").2.promotionMove =
        some ("e7", "e8") :=
  onDrop_promotion_defers_commit none promoTestState "e7" "e8" rfl (by decide) (by decide)

/-- Claim C10: whenever undo or redo actually moves the cursor (within a
well-formed snapshot list), the human-to-move flag is recomputed from the
restored snapshot — true exactly when its active color is `w` — and the
live position becomes that snapshot; in particular, when the restored
snapshot has black to move and is not a terminal position, the AI-trigger
effect fires after the undo. -/
theorem undo_redo_recompute_turn_flag
    (turnOf : String → String) (isOver : String → Bool) (st : GameState) :
    (0 < st.currentStateIndex → st.currentStateIndex < (st.gameStates.length : Int) →
        (undoStep turnOf st).isPlayerTurn = (turnOf (prevFen st) == "w") ∧
          (undoStep turnOf st).gameFen = prevFen st ∧
          (undoStep turnOf st).currentStateIndex = st.currentStateIndex - 1) ∧
      (-1 ≤ st.currentStateIndex → st.currentStateIndex < (st.gameStates.length : Int) - 1 →
        (redoStep turnOf st).isPlayerTurn = (turnOf (nextFen st) == "w") ∧
          (redoStep turnOf st).gameFen = nextFen st ∧
          (redoStep turnOf st).currentStateIndex = st.currentStateIndex + 1) ∧
      (0 < st.currentStateIndex → st.currentStateIndex < (st.gameStates.length : Int) →
        (turnOf (prevFen st) == "w") = false → isOver (prevFen st) = false →
        aiMoveTrigger isOver (undoStep turnOf st) = true) := by
  refine ⟨fun h1 h2 => ?_, fun h1 h2 => ?_, fun h1 h2 h3 h4 => ?_⟩
  · rw [undoStep_eq turnOf st h1 h2]
    exact ⟨rfl, rfl, rfl⟩
  · rw [redoStep_eq turnOf st h1 h2]
    exact ⟨rfl, rfl, rfl⟩
  · rw [undoStep_eq turnOf st h1 h2]
    unfold aiMoveTrigger
    simp only [h3, h4]
    rfl

/-- A component state during the human's turn after 1. e4 e5, used to
witness the undo-hands-move-to-AI behavior. -/
def undoDuringHumanTurnState : GameState :=
  { gameFen := fenAfterE4E5,
    gameHist := [],
    isPlayerTurn := true,
    gameStates := [fenStart, fenAfterE4, fenAfterE4E5],
    currentStateIndex := 2,
    capturedPieces := { w := [], b := [] },
    moveHistory := [],
    promotionMove := none,
    showPromotionModal := false }

/-- Witness for claim C10: undoing a single ply during the human's turn
restores a black-to-move snapshot, so the flag becomes false and the
AI-trigger effect fires. -/
theorem undo_redo_recompute_turn_flag_witness :
    (undoStep fenActiveColor undoDuringHumanTurnState).isPlayerTurn =
        (fenActiveColor (prevFen undoDuringHumanTurnState) == "w") ∧
      aiMoveTrigger (fun _ => false) (undoStep fenActiveColor undoDuringHumanTurnState) =
        true := by
  have h := undo_redo_recompute_turn_flag fenActiveColor (fun _ => false)
    undoDuringHumanTurnState
  exact ⟨(h.1 (by decide) (by decide)).1,
    h.2.2 (by decide) (by decide) (by decide) rfl⟩
